import Mathlib

/-!
Shallow embedding of the NeuroFocus monitoring core (`Neurofocus_app.py`).

Python strings are modelled as `List Char` (ASCII-level fidelity).
Python `int(x)` applied to a float truncates toward zero; for the
magnitudes arising here (numerators bounded by a few hundred thousand,
denominators 1023 or a window length at most 30) the float computation
`int(100.0 * (raw / 1023.0))` and `int(np.mean(window))` agree exactly
with truncation of the exact rational, because the exact rational is
never closer than `1/1023` (resp. `1/len`) to an integer unless it is
one, far beyond double rounding error.  So `int(...)` is embedded as
`Int.tdiv` (truncation toward zero).  The spec's "floored mean" is
`Int.fdiv`.
-/

namespace Neurofocus

/-! ## Python string helpers -/

/-- Whitespace characters stripped by Python `str.strip()` / `int(str)`
(ASCII subset). -/
def pyIsSpace (c : Char) : Bool :=
  c = ' ' || c = '\t' || c = '\n' || c = '\x0d' || c = '\x0b' || c = '\x0c'

/-- Python `str.strip()`: remove whitespace from both ends. -/
def pyStrip (l : List Char) : List Char :=
  ((l.dropWhile pyIsSpace).reverse.dropWhile pyIsSpace).reverse

/-- Digits (and single underscores between digits, as Python's `int`
accepts) following a leading digit; accumulates the value. -/
def parseDigitsAux (acc : Nat) : List Char → Option Nat
  | [] => some acc
  | c :: rest =>
    if c.isDigit then parseDigitsAux (10 * acc + (c.toNat - 48)) rest
    else if c = '_' then
      match rest with
      | [] => none
      | d :: rest2 =>
        if d.isDigit then parseDigitsAux (10 * acc + (d.toNat - 48)) rest2
        else none
    else none

/-- A nonempty digit string (underscore-separated groups allowed), as
accepted by Python `int` after sign handling. -/
def parseDigits : List Char → Option Nat
  | [] => none
  | c :: rest => if c.isDigit then parseDigitsAux (c.toNat - 48) rest else none

/-- Python `int(s)` on an ASCII string: strip whitespace, optional sign,
then a digit string. `none` models the `ValueError` caught by the bare
`except: pass` in `SerialReader.run`. -/
def pyParseInt (l : List Char) : Option Int :=
  match pyStrip l with
  | '-' :: rest => (parseDigits rest).map (fun n => -(n : Int))
  | '+' :: rest => (parseDigits rest).map (fun n => (n : Int))
  | s => (parseDigits s).map (fun n => (n : Int))

/-- Python `str.split(sep)` for a single-character separator. -/
def splitCh (sep : Char) : List Char → List (List Char)
  | [] => [[]]
  | c :: rest =>
    if c = sep then [] :: splitCh sep rest
    else
      match splitCh sep rest with
      | g :: gs => (c :: g) :: gs
      | [] => [[c]]

/-! ## Reader loop line decoding (`SerialReader.run`, lines 56-64) -/

/-- The wire tag `"PULSE_RAW:"`. -/
def pulseTag : List Char := "PULSE_RAW:".toList

/-- `int(100.0 * (raw / 1023.0))`: linear rescaling with truncation
toward zero (line 61). -/
def scaleRaw (raw : Int) : Int := Int.tdiv (100 * raw) 1023

/-- Decoding of one received line (lines 58-64): if the line starts with
`PULSE_RAW:`, take the field after the first colon, parse it as a Python
int and rescale; any failure (prefix mismatch, missing field, parse
error) yields `none`, i.e. the line is silently dropped. -/
def processLine (line : List Char) : Option Int :=
  if line.take pulseTag.length = pulseTag then
    match (splitCh ':' line).drop 1 with
    | fld :: _ => (pyParseInt fld).map scaleRaw
    | [] => none
  else none

/-- Value of a decimal digit string. -/
def digitsToNat (l : List Char) : Nat :=
  List.foldl (fun a c => 10 * a + (c.toNat - 48)) 0 l

/-- The claim/spec wire format (spec side, for comparison with
`processLine`): a line is of the form `PULSE_RAW:<integer in 0-1023>`
iff it is the tag followed by a nonempty string of decimal digits
(leading zeros allowed, to read the claim generously) whose value is at
most 1023. -/
def pulseWellFormed (line : List Char) : Prop :=
  line.take pulseTag.length = pulseTag ∧
  line.drop pulseTag.length ≠ [] ∧
  (∀ c ∈ line.drop pulseTag.length, c.isDigit = true) ∧
  digitsToNat (line.drop pulseTag.length) ≤ 1023

instance (line : List Char) : Decidable (pulseWellFormed line) := by
  unfold pulseWellFormed
  infer_instance

/-! ## Reader loop state machine (`SerialReader`, lines 33-78)

State: the cooperative stop flag `_stop`, whether `self.ser` currently
holds an open handle (`ser = true` ↔ `self.ser is not None`; setting it
to `false` models close + `self.ser = None`), and the hand-off queue
`out_list`.  The environment is modelled by oracles: the outcome of a
`serial.Serial(...)` constructor call and the outcome of a `readline`
call. -/

structure ReaderState where
  stopFlag : Bool
  ser : Bool
  queue : List Int
deriving DecidableEq

/-- Outcome of a connection attempt in `SerialReader.connect`. -/
inductive ConnectResult where
  | connOk
  | connFail
deriving DecidableEq

/-- Outcome of `self.ser.readline()...` in `SerialReader.run`. -/
inductive ReadEvent where
  | lineRead (line : List Char)
  | ioError
deriving DecidableEq

/-- Result of one pass through the `while` loop of `SerialReader.run`:
either the loop exits (recording whether a handle was still open and is
closed on the way out), or it continues with a new state after sleeping
the given whole number of seconds. -/
inductive IterOut where
  | exited (hadHandle : Bool)
  | continued (s : ReaderState) (slept : Nat)
deriving DecidableEq

/-- One pass through the loop body of `SerialReader.run` (lines 50-75).
With no handle it calls `connect` (which itself sleeps 1s on success,
line 46) then sleeps 1s and continues; with a handle it reads a line:
an I/O error closes the handle (lines 65-70), a received line is decoded
by `processLine` and appended to the queue if valid (lines 57-64). -/
def readerIter (s : ReaderState) (conn : ConnectResult) (rd : ReadEvent) :
    IterOut :=
  if s.stopFlag then .exited s.ser
  else if s.ser = false then
    match conn with
    | .connOk => .continued { s with ser := true } 2
    | .connFail => .continued s 1
  else
    match rd with
    | .ioError => .continued { s with ser := false } 0
    | .lineRead line =>
      .continued { s with queue := s.queue ++ (processLine line).toList } 0

/-- The state after one loop pass (the state is unchanged when the loop
has exited). -/
def iterState (s : ReaderState) (conn : ConnectResult) (rd : ReadEvent) :
    ReaderState :=
  match readerIter s conn rd with
  | .exited _ => s
  | .continued s2 _ => s2

/-- `n` consecutive loop passes in which every connection attempt fails. -/
def failSteps : Nat → ReaderState → ReaderState
  | 0, s => s
  | n + 1, s => failSteps n (iterState s .connFail (.lineRead []))

/-! ## Feedback writer (`ArduinoWriter`, lines 80-99) -/

/-- Whether `self.ser` of the writer currently holds an open handle. -/
structure WriterState where
  ser : Bool
deriving DecidableEq

/-- Outcome of `self.ser.write(...)`. -/
inductive WriteResult where
  | ok
  | fail
deriving DecidableEq

/-- `ArduinoWriter.send` (lines 90-99): with no handle, do nothing;
otherwise write `cmd + '\n'`; on a write failure close the handle and
set it to `None`.  Returns the new state and the line written, if any. -/
def writerSend (s : WriterState) (cmd : List Char) (res : WriteResult) :
    WriterState × Option (List Char) :=
  if s.ser then
    match res with
    | .ok => (s, some (cmd ++ ['\n']))
    | .fail => (⟨false⟩, none)
  else (s, none)

/-! ## Classification (monitoring loop, lines 206-214) -/

/-- The three stress levels shown as Relaxed (green), Mild (yellow) and
High (red). -/
inductive Level where
  | relaxed
  | mild
  | high
deriving DecidableEq

/-- The integer `level` variable the code assigns in each branch
(lines 207, 210, 213). -/
def levelOrdinal : Level → Nat
  | .relaxed => 0
  | .mild => 1
  | .high => 2

/-- The `if smooth >= th_high / elif smooth >= th_med / else` cascade
(lines 206-214). -/
def classify (thHigh thMed smooth : Int) : Level :=
  if thHigh ≤ smooth then .relaxed
  else if thMed ≤ smooth then .mild
  else .high

/-- The command sent to the device: `f"SET:{level}"` (line 218). -/
def levelCommand (l : Level) : List Char :=
  ("SET:" ++ toString (levelOrdinal l)).toList

/-! ## Threshold sliders (sidebar, lines 113-114) -/

/-- Values an operator can set with the `st.slider("Green threshold (≥)",
50, 100, 70)` widget (line 113). -/
def settableHigh (v : Int) : Prop := 50 ≤ v ∧ v ≤ 100

/-- Values an operator can set with the `st.slider("Yellow threshold
(< and ≥)", 0, 99, 40)` widget (line 114). -/
def settableMed (v : Int) : Prop := 0 ≤ v ∧ v ≤ 99

/-! ## Sample acquisition and smoothing (monitoring loop, lines 183-198) -/

/-- `int(max(0, min(100, random.gauss(60, 8))))` (lines 186, 192): the
Gaussian draw is modelled by an arbitrary rational `g`; the clamped
value is in `[0, 100]`, hence nonneg, so `int` truncation equals the
floor. -/
def demoVal (g : ℚ) : Int := ⌊max 0 (min 100 g)⌋

/-- Sample acquisition for one tick (lines 185-192): in demo mode a demo
value; otherwise pop the front of the hand-off queue, falling back to a
demo value when the queue is empty.  Returns the sample and the
remaining queue. -/
def tickSample (demoMode : Bool) (q : List Int) (g : ℚ) : Int × List Int :=
  if demoMode then (demoVal g, q)
  else
    match q with
    | v :: rest => (v, rest)
    | [] => (demoVal g, [])

/-- One `deque(maxlen=cap).append(v)`: append on the right, evicting
from the left whenever the capacity is exceeded. -/
def appendBounded (cap : Nat) (buf : List Int) (v : Int) : List Int :=
  let b := buf ++ [v]
  if cap < b.length then b.drop (b.length - cap) else b

/-- The contents of `st.session_state.values` (a `deque(maxlen=cap)`)
after appending the samples `xs` in order, starting empty. -/
def runAppends (cap : Nat) (xs : List Int) : List Int :=
  List.foldl (appendBounded cap) [] xs

/-- Lines 194-198 of the monitoring loop: append the tick's sample to the
display deque (capacity 400), slice the last `w` elements
(`list(values)[-w:]`, which for `w ≥ 1` is `List.rtake`), and smooth:
`int(np.mean(window)) if window else val`.  Returns the new deque
contents and the smoothed value. -/
def engineTick (w : Nat) (buf : List Int) (val : Int) : List Int × Int :=
  let buf2 := appendBounded 400 buf val
  let win := buf2.rtake w
  (buf2, if win.isEmpty then val else Int.tdiv win.sum win.length)

/-! ## Helper lemmas about the bounded buffer -/

theorem appendBounded_eq_rtake (cap : Nat) (buf : List Int) (v : Int) :
    appendBounded cap buf v = (buf ++ [v]).rtake cap := by
  simp only [appendBounded, List.rtake]
  split_ifs with h
  · rfl
  · rw [Nat.sub_eq_zero_of_le (Nat.le_of_not_lt h), List.drop_zero]

theorem length_rtake_eq (l : List Int) (n : Nat) :
    (l.rtake n).length = min n l.length := by
  simp only [List.rtake, List.length_drop]
  omega

theorem rtake_rtake_min (l : List Int) (a b : Nat) :
    (l.rtake b).rtake a = l.rtake (min a b) := by
  simp [List.rtake_eq_reverse_take_reverse, List.take_take]

theorem rtake_append_right (cap : Nat) (l : List Int) (v : Int) :
    ((l.rtake cap) ++ [v]).rtake cap = (l ++ [v]).rtake cap := by
  cases cap with
  | zero => simp [List.rtake]
  | succ n =>
    rw [List.rtake_concat_succ, List.rtake_concat_succ, rtake_rtake_min,
      Nat.min_eq_left (Nat.le_succ n)]

theorem runAppends_eq_rtake (cap : Nat) (xs : List Int) :
    runAppends cap xs = xs.rtake cap := by
  induction xs using List.reverseRecOn with
  | nil => simp [runAppends]
  | append_singleton ys v ih =>
    unfold runAppends at ih ⊢
    rw [List.foldl_append, List.foldl_cons, List.foldl_nil, ih,
      appendBounded_eq_rtake, rtake_append_right]

theorem mem_of_mem_rtake {x : Int} {l : List Int} {n : Nat}
    (h : x ∈ l.rtake n) : x ∈ l :=
  List.mem_of_mem_drop h

/-! ## Claim theorems -/

/-- C2 counterexample: the claim quantifies over every pair of
thresholds, but for the settable pair `th_high = 50`, `th_med = 60` and
smoothed value 55 the code classifies Relaxed (the first branch fires on
`55 ≥ 50`) although `55 < 60 = med`, where the claim's rules demand
High. -/
theorem c2_counterexample :
    settableHigh 50 ∧ settableMed 60 ∧ (55 : Int) < 60 ∧
      classify 50 60 55 ≠ Level.high ∧ classify 50 60 55 = Level.relaxed := by
  refine ⟨⟨by norm_num, by norm_num⟩, ⟨by norm_num, by norm_num⟩,
    by norm_num, by decide, by decide⟩

/-- C2 (amended): for every integer smoothed value and every pair of
thresholds **with `med < high`**, classification assigns exactly one
level, and it follows the rules `smoothed ≥ high → Relaxed`,
`med ≤ smoothed < high → Mild`, `smoothed < med → High`. -/
theorem c2_classification (thHigh thMed s : Int) (h : thMed < thHigh) :
    (classify thHigh thMed s = Level.relaxed ∨
      classify thHigh thMed s = Level.mild ∨
      classify thHigh thMed s = Level.high) ∧
    (classify thHigh thMed s = Level.relaxed ↔ thHigh ≤ s) ∧
    (classify thHigh thMed s = Level.mild ↔ thMed ≤ s ∧ s < thHigh) ∧
    (classify thHigh thMed s = Level.high ↔ s < thMed) := by
  unfold classify
  split_ifs with h1 h2 <;> simp_all
  omega

/-- Witness for `c2_classification` at the default thresholds
`high = 70`, `med = 40` and smoothed value 55. -/
theorem c2_classification_witness : classify 70 40 55 = Level.mild :=
  ((c2_classification 70 40 55 (by norm_num)).2.2.1).mpr (by norm_num)

/-- C3: the sidebar sliders do **not** enforce `med < high` — the
operator can set `th_high = 50` (within the Green slider's range
`[50, 100]`) and `th_med = 60` (within the Yellow slider's range
`[0, 99]`), violating the invariant. -/
theorem c3_thresholds_not_enforced :
    settableHigh 50 ∧ settableMed 60 ∧ ¬ ((60 : Int) < 50) := by
  refine ⟨⟨by norm_num, by norm_num⟩, ⟨by norm_num, by norm_num⟩, by norm_num⟩

/-- C5: for every raw reading in `[0, 1023]`, the scaled sample equals
the floored value of `100·raw/1023` and lies in `[0, 100]`; in
particular `raw = 512` yields 50. -/
theorem c5_scale_bounds (raw : Int) (h0 : 0 ≤ raw) (h1 : raw ≤ 1023) :
    scaleRaw raw = Int.fdiv (100 * raw) 1023 ∧
    0 ≤ scaleRaw raw ∧ scaleRaw raw ≤ 100 ∧ scaleRaw 512 = 50 := by
  have ha : (0 : Int) ≤ 100 * raw := by omega
  have hb : (0 : Int) ≤ 1023 := by norm_num
  refine ⟨(Int.fdiv_eq_tdiv ha hb).symm, ?_, ?_, by decide⟩
  · rw [scaleRaw, Int.tdiv_eq_ediv ha hb]
    exact Int.ediv_nonneg ha hb
  · rw [scaleRaw, Int.tdiv_eq_ediv ha hb]
    calc 100 * raw / 1023 ≤ 100 * 1023 / 1023 :=
          Int.ediv_le_ediv (by norm_num) (by omega)
    _ = 100 := by decide

/-- Witness for `c5_scale_bounds` at `raw = 512`. -/
theorem c5_scale_bounds_witness :
    scaleRaw 512 = Int.fdiv (100 * 512) 1023 ∧
    0 ≤ scaleRaw 512 ∧ scaleRaw 512 ≤ 100 ∧ scaleRaw 512 = 50 :=
  c5_scale_bounds 512 (by norm_num) (by norm_num)

/-- C7: on a tick in device mode (`demo_mode = False`) with an empty
hand-off queue, the engine still produces a sample for that tick — the
locally generated demo value — and that value is an integer in
`[0, 100]`. -/
theorem c7_fallback (g : ℚ) :
    tickSample false [] g = (demoVal g, []) ∧
    0 ≤ demoVal g ∧ demoVal g ≤ 100 := by
  refine ⟨rfl, ?_, ?_⟩
  · exact Int.le_floor.mpr (by push_cast; exact le_max_left 0 _)
  · have hle : max 0 (min 100 g) ≤ (100 : ℚ) :=
      max_le (by norm_num) (min_le_left _ _)
    calc demoVal g ≤ ⌊(100 : ℚ)⌋ := Int.floor_mono hle
    _ = 100 := by norm_num

/-- C8: the feedback writer writes `SET:<ordinal>` with Relaxed = 0,
Mild = 1, High = 2; a write failure closes the handle and marks the
writer unconnected; every send while unconnected is a no-op and leaves
the writer unconnected (it never auto-reconnects). -/
theorem c8_writer (cmd : List Char) (res : WriteResult) :
    levelCommand Level.relaxed = "SET:0".toList ∧
    levelCommand Level.mild = "SET:1".toList ∧
    levelCommand Level.high = "SET:2".toList ∧
    writerSend ⟨true⟩ cmd .ok = (⟨true⟩, some (cmd ++ ['\n'])) ∧
    writerSend ⟨true⟩ cmd .fail = (⟨false⟩, none) ∧
    writerSend ⟨false⟩ cmd res = (⟨false⟩, none) := by
  refine ⟨by decide, by decide, by decide, rfl, rfl, rfl⟩

/-- C4 counterexample: the line `PULSE_RAW:2000` is not of the form
`PULSE_RAW:<integer in 0-1023>`, yet the reader loop parses it (the code
never range-checks the integer) and appends the rescaled value
`int(100·2000/1023) = 195` to the hand-off queue. -/
theorem c4_counterexample :
    ¬ pulseWellFormed "PULSE_RAW:2000".toList ∧
    processLine "PULSE_RAW:2000".toList = some 195 := by
  constructor
  · decide
  · decide

/-- C4 (amended): a received line that does not start with `PULSE_RAW:`,
or whose first `:`-separated field after the tag does not parse as a
Python integer, is ignored: nothing is appended to the hand-off queue
and the connection state is unchanged.  (The code does not check that
the parsed integer lies in `[0, 1023]`, so lines such as
`PULSE_RAW:2000` — excluded by the original claim — are appended.) -/
theorem c4_malformed_ignored (line : List Char) (q : List Int)
    (h : line.take pulseTag.length ≠ pulseTag ∨
      pyParseInt (((splitCh ':' line).drop 1).headD []) = none) :
    processLine line = none ∧
    readerIter ⟨false, true, q⟩ .connFail (.lineRead line) =
      .continued ⟨false, true, q⟩ 0 := by
  have hp : processLine line = none := by
    unfold processLine
    rcases h with h | h
    · simp [h]
    · split_ifs with ht
      · cases hm : (splitCh ':' line).drop 1 with
        | nil => rfl
        | cons fld rest =>
          rw [hm, List.headD_cons] at h
          simp [h]
      · rfl
  refine ⟨hp, ?_⟩
  simp [readerIter, hp]

/-- Witness for `c4_malformed_ignored` on the spec's line `"garbage"`. -/
theorem c4_malformed_ignored_witness :
    processLine "garbage".toList = none ∧
    readerIter ⟨false, true, [7]⟩ .connFail (.lineRead "garbage".toList) =
      .continued ⟨false, true, [7]⟩ 0 :=
  c4_malformed_ignored "garbage".toList [7] (Or.inl (by decide))

/-- C6: an I/O error while reading closes the handle and moves the
reader to Disconnected (`self.ser = None`); while disconnected, a failed
connection attempt leaves it disconnected and sleeps 1 second before the
next pass; a successful attempt moves it to Reading; any number of
consecutive failed attempts leaves it still retrying (never exited), and
the loop exits only once the stop flag is set. -/
theorem c6_reader_reconnect (q : List Int) (conn : ConnectResult)
    (rd : ReadEvent) (n : Nat) (b : Bool) :
    readerIter ⟨false, true, q⟩ conn .ioError =
      .continued ⟨false, false, q⟩ 0 ∧
    readerIter ⟨false, false, q⟩ .connFail rd =
      .continued ⟨false, false, q⟩ 1 ∧
    readerIter ⟨false, false, q⟩ .connOk rd =
      .continued ⟨false, true, q⟩ 2 ∧
    failSteps n ⟨false, false, q⟩ = ⟨false, false, q⟩ ∧
    readerIter ⟨true, b, q⟩ conn rd = .exited b := by
  refine ⟨rfl, rfl, rfl, ?_, rfl⟩
  induction n with
  | zero => rfl
  | succ m ih => simpa [failSteps, iterState, readerIter, processLine] using ih

/-- C9: the display history deque (capacity 400) never holds more than
400 samples — after any run it holds exactly the last `min 400 n`
samples appended — and an append to a full deque evicts the oldest
element first. -/
theorem c9_history_bounded (xs : List Int) (buf : List Int) (v : Int)
    (hful : buf.length = 400) :
    (runAppends 400 xs).length ≤ 400 ∧
    runAppends 400 xs = xs.rtake 400 ∧
    appendBounded 400 buf v = buf.tail ++ [v] := by
  refine ⟨?_, runAppends_eq_rtake 400 xs, ?_⟩
  · rw [runAppends_eq_rtake, length_rtake_eq]
    omega
  · rw [appendBounded_eq_rtake]
    have hlen : (buf ++ [v]).length - 400 = 1 := by simp [hful]
    rw [List.rtake, hlen, List.drop_one, ← List.drop_one,
      List.drop_append_of_le_length (by omega), List.drop_one]

/-- Witness for `c9_history_bounded` with a full 400-element buffer. -/
theorem c9_history_bounded_witness :
    (runAppends 400 [1, 2]).length ≤ 400 ∧
    runAppends 400 [1, 2] = ([1, 2] : List Int).rtake 400 ∧
    appendBounded 400 (List.replicate 400 0) 5 =
      (List.replicate 400 (0 : Int)).tail ++ [5] :=
  c9_history_bounded [1, 2] (List.replicate 400 0) 5
    (by rw [List.length_replicate])

/-- C10: on every tick the smoothing window is non-empty when the
smoothed value is computed — the tick's sample is appended before
slicing, and the window size is at least 1 — so the `else val` fallback
of line 198 is never taken: the smoothed value is always the truncated
mean of the window. -/
theorem c10_window_nonempty (w : Nat) (buf : List Int) (val : Int)
    (hw : 1 ≤ w) :
    (appendBounded 400 buf val).rtake w ≠ [] ∧
    (engineTick w buf val).2 =
      Int.tdiv ((appendBounded 400 buf val).rtake w).sum
        ((appendBounded 400 buf val).rtake w).length := by
  have hlen : 0 < ((appendBounded 400 buf val).rtake w).length := by
    rw [appendBounded_eq_rtake, length_rtake_eq, length_rtake_eq]
    simp only [List.length_append, List.length_cons, List.length_nil]
    omega
  have hne : (appendBounded 400 buf val).rtake w ≠ [] := by
    intro hnil
    rw [hnil] at hlen
    simp at hlen
  refine ⟨hne, ?_⟩
  unfold engineTick
  simp [List.isEmpty_iff, hne]

/-- Witness for `c10_window_nonempty` at window size 8 on the first
tick. -/
theorem c10_window_nonempty_witness :
    (appendBounded 400 [] 50).rtake 8 ≠ [] ∧
    (engineTick 8 [] 50).2 =
      Int.tdiv ((appendBounded 400 [] 50).rtake 8).sum
        ((appendBounded 400 [] 50).rtake 8).length :=
  c10_window_nonempty 8 [] 50 (by norm_num)

/-- C1: for every window size `w ∈ [1, 30]` and every sequence of
appended samples (integers in `[0, 100]`, the last one being the current
tick's sample), the smoothed value produced by the tick equals the
floored arithmetic mean of the last `min w n` samples, where `n` is the
number of samples seen. -/
theorem c1_smoothed_mean (w : Nat) (xs : List Int) (val : Int)
    (hw1 : 1 ≤ w) (hw2 : w ≤ 30)
    (hr : ∀ x ∈ xs ++ [val], 0 ≤ x ∧ x ≤ 100) :
    (engineTick w (runAppends 400 xs) val).2 =
      Int.fdiv ((xs ++ [val]).rtake w).sum (min w (xs.length + 1)) := by
  have hbuf : appendBounded 400 (runAppends 400 xs) val =
      (xs ++ [val]).rtake 400 := by
    rw [runAppends_eq_rtake, appendBounded_eq_rtake, rtake_append_right]
  have hwin : ((xs ++ [val]).rtake 400).rtake w = (xs ++ [val]).rtake w := by
    rw [rtake_rtake_min, Nat.min_eq_left (by omega)]
  have hlen : ((xs ++ [val]).rtake w).length = min w (xs.length + 1) := by
    rw [length_rtake_eq]
    simp
  have hpos : 0 < ((xs ++ [val]).rtake w).length := by
    rw [hlen]
    omega
  have hne : (xs ++ [val]).rtake w ≠ [] := by
    intro hnil
    rw [hnil] at hpos
    simp at hpos
  have hsum : 0 ≤ ((xs ++ [val]).rtake w).sum :=
    List.sum_nonneg fun x hx => (hr x (mem_of_mem_rtake hx)).1
  unfold engineTick
  simp only [hbuf, hwin, List.isEmpty_iff, if_neg hne, hlen]
  rw [Int.fdiv_eq_tdiv hsum (by positivity)]
  push_cast
  rfl

/-- Witness for `c1_smoothed_mean`: window size 2, samples 10 then 21;
the smoothed value is `floor((10+21)/2) = 15`. -/
theorem c1_smoothed_mean_witness :
    (engineTick 2 (runAppends 400 [10]) 21).2 = 15 :=
  (c1_smoothed_mean 2 [10] 21 (by norm_num) (by norm_num)
    (by decide)).trans (by decide)

end Neurofocus
